import Mathlib

/-!
Shallow embedding of the core of `deepseek_python_20250718_eb2c6a.py`
(the LongxingToolkit DeepSeek chat client): the persistent store
(`ConfigManager`), the chat transport (`DeepSeekClient`), and the
streaming session controller (the `ApiRequestThread` worker together
with the `DeepSeekApp` slots `send_message`, `update_response`,
`on_request_finished`, `on_api_error`, `stop_streaming`).

Python dicts are modelled as association lists without duplicate keys
(lookup returns the first binding), JSON values as the inductive
`JValue`, wall-clock time as `ℚ` (seconds), and the Qt signal/slot
traffic of one exchange as a list of events folded over the UI state.
-/

/-- Message roles used by the client (`role` field of a message dict). -/
inductive Role
  | user
  | assistant
  | system
deriving DecidableEq, Repr

/-- One chat message: `{"role": ..., "content": ...}`. -/
structure Message where
  role : Role
  content : String
deriving DecidableEq, Repr

/-- JSON-like values stored in `config.json`. -/
inductive JValue
  | str (s : String)
  | bool (b : Bool)
  | num (n : Int)
  | list (xs : List JValue)
  | obj (fields : List (String × JValue))

/-- Dict lookup: value of the first binding of `k`, as Python `d[k]` /
`k in d` on a duplicate-free dict. -/
def lookupJ : List (String × JValue) → String → Option JValue
  | [], _ => none
  | p :: rest, k => if p.1 = k then some p.2 else lookupJ rest k

/-- Python dict assignment `d[k] = v`: replaces the (first) binding of
`k` in place, or appends a new binding at the end. -/
def setKey : List (String × JValue) → String → JValue → List (String × JValue)
  | [], k, v => [(k, v)]
  | p :: rest, k, v => if p.1 = k then (k, v) :: rest else p :: setKey rest k v

/-- Python `{**d, **l}`: all keys of `d` in order (values overridden by
`l` where present), followed by the keys of `l` absent from `d`. -/
def pyDictMerge (d l : List (String × JValue)) : List (String × JValue) :=
  d.map (fun p => (p.1, (lookupJ l p.1).getD p.2)) ++
    l.filter (fun p => (lookupJ d p.1).isNone)

/-- Model of `ConfigManager.DEFAULT_CONFIG` from the source. -/
def DEFAULT_CONFIG : List (String × JValue) :=
  [("api_key", .str ""),
   ("language", .str "zh-CN"),
   ("theme", .str "light"),
   ("model", .str "deepseek-chat"),
   ("stream", .bool true),
   ("update_interval", .num 100),
   ("history", .list []),
   ("current_session", .list []),
   ("user", .obj [("username", .str ""),
                  ("login_type", .str "manual"),
                  ("last_login", .str "")])]

/-- Value the `load_config` merge loop leaves at default key `k` whose
default value is `dv`: keep `dv` when the loaded document lacks `k`,
take the loaded value otherwise — except that when both values are
dicts they are merged key-by-key (`{**default, **loaded}`). -/
def mergeVal (lc : List (String × JValue)) (k : String) (dv : JValue) : JValue :=
  match lookupJ lc k with
  | none => dv
  | some lv =>
    match dv, lv with
    | .obj dd, .obj ld => .obj (pyDictMerge dd ld)
    | _, _ => lv

/-- Model of `ConfigManager.load_config`: start from the default template
(`config = DEFAULT_CONFIG.copy()`) and overwrite each default key from
the loaded document per `mergeVal`; only keys of the default template
survive. `none` models a missing or unreadable backing file (defaults
used, as in the exception handler). -/
def load_config (loaded : Option (List (String × JValue))) : List (String × JValue) :=
  match loaded with
  | none => DEFAULT_CONFIG
  | some lc => DEFAULT_CONFIG.map (fun p => (p.1, mergeVal lc p.1 p.2))

/-- Python `str.strip()`: drop leading and trailing whitespace. -/
def pyStrip (s : String) : String :=
  ⟨((s.data.dropWhile Char.isWhitespace).reverse.dropWhile Char.isWhitespace).reverse⟩

/-- Split a character list at every occurrence of `c` (Python
`str.split(c)` on the underlying code points). -/
def splitOnChar (c : Char) : List Char → List (List Char)
  | [] => [[]]
  | ch :: rest =>
    let r := splitOnChar c rest
    if ch = c then [] :: r
    else
      match r with
      | [] => [[ch]]
      | g :: gs => (ch :: g) :: gs

/-- Python `key.split('.')`. -/
def pySplit (s : String) (c : Char) : List String :=
  (splitOnChar c s.data).map (fun l => ⟨l⟩)

/-- Walk a dotted path through nested dicts (`ConfigManager.get` loop). -/
def walkPath : JValue → List String → Option JValue
  | v, [] => some v
  | .obj fields, k :: ks =>
    match lookupJ fields k with
    | some v => walkPath v ks
    | none => none
  | _, _ :: _ => none

/-- Model of `ConfigManager.get`: split the key on `.`, walk the config; on a
missing segment fall back to `DEFAULT_CONFIG.get(key, None)` (the whole
dotted key looked up flat in the default template). -/
def ConfigManager.get (config : List (String × JValue)) (key : String) : Option JValue :=
  match walkPath (.obj config) (pySplit key '.') with
  | some v => some v
  | none => lookupJ DEFAULT_CONFIG key

/-- Serialize one message the way it sits in `config.json`. -/
def roleToString : Role → String
  | .user => "user"
  | .assistant => "assistant"
  | .system => "system"

def encodeMessage (m : Message) : JValue :=
  .obj [("role", .str (roleToString m.role)), ("content", .str m.content)]

def encodeMessages (ms : List Message) : JValue :=
  .list (ms.map encodeMessage)

def decodeRole (s : String) : Option Role :=
  if s = "user" then some .user
  else if s = "assistant" then some .assistant
  else if s = "system" then some .system
  else none

def decodeMessage : JValue → Option Message
  | .obj fields =>
    match lookupJ fields "role", lookupJ fields "content" with
    | some (.str r), some (.str c) => (decodeRole r).map (fun ρ => ⟨ρ, c⟩)
    | _, _ => none
  | _ => none

def decodeMessageList : List JValue → Option (List Message)
  | [] => some []
  | x :: xs =>
    match decodeMessage x, decodeMessageList xs with
    | some m, some ms => some (m :: ms)
    | _, _ => none

def decodeMessages : JValue → Option (List Message)
  | .list xs => decodeMessageList xs
  | _ => none

/-- Model of `ConfigManager.save_current_session`: `config["current_session"] =
messages` followed by a write-through of the whole config document. -/
def save_current_session (config : List (String × JValue)) (messages : List Message) :
    List (String × JValue) :=
  setKey config "current_session" (encodeMessages messages)

/-- One archived conversation in `config["history"]`. -/
structure HistoryEntry where
  title : String
  timestamp : String
  messages : List Message
deriving DecidableEq, Repr

/-- Title derivation in `ConfigManager.add_to_history`:
`session[0]["content"][:30] + ("..." if len(session[0]["content"]) > 30 else "")`,
with the fallback title when the first message's content is unavailable
(the `IndexError`/`KeyError` branch). -/
def mkTitle : Option String → String
  | none => "无标题对话"
  | some c => c.take 30 ++ (if c.length > 30 then "..." else "")

/-- The history entry built for a session archived at instant `now`. -/
def mkEntry (session : List Message) (now : String) : HistoryEntry :=
  ⟨mkTitle ((session.head?).map Message.content), now, session⟩

/-- Model of `ConfigManager.add_to_history`: no-op on an empty session; otherwise
prepend the new entry and truncate to the newest 50. -/
def add_to_history (hist : List HistoryEntry) (session : List Message) (now : String) :
    List HistoryEntry :=
  if session = [] then hist
  else
    let newHist := mkEntry session now :: hist
    if 50 < newHist.length then newHist.take 50 else newHist

/-- A sequence of `add_to_history` calls (session, timestamp) in order. -/
def addMany (hist : List HistoryEntry) (appends : List (List Message × String)) :
    List HistoryEntry :=
  appends.foldl (fun h p => add_to_history h p.1 p.2) hist

/-! ### Chat transport (`DeepSeekClient`) -/

/-- Mutable state of a `DeepSeekClient` instance relevant to throttling:
`self.last_request_time` (seconds, `time.time()` modelled as `ℚ`). -/
structure ClientState where
  last_request_time : ℚ
deriving DecidableEq, Repr

/-- Value of `self.min_request_interval = 1.0` set in `DeepSeekClient.__init__`. -/
def min_request_interval : ℚ := 1

/-- The JSON request body built by `DeepSeekClient.chat`. -/
structure ChatPayload where
  model : String
  messages : List Message
  temperature : ℚ
  max_tokens : Nat
  stream : Bool
deriving DecidableEq, Repr

/-- Outcome of one `DeepSeekClient.chat` invocation: either the
client-side rate limiter raises `"Rate limit exceeded"` before any
network I/O, or an HTTP POST with the given payload is issued. -/
inductive ChatOutcome
  | rateLimited
  | request (p : ChatPayload)
deriving DecidableEq, Repr

/-- Model of `DeepSeekClient.chat` up to the point the HTTP request is issued:
if less than `min_request_interval` has elapsed since
`last_request_time`, raise (state untouched, no request); otherwise
record the current time and issue the request with temperature 0.7. -/
def DeepSeekClient.chat (st : ClientState) (now : ℚ) (messages : List Message)
    (model : String) (max_tokens : Nat) (stream : Bool) : ClientState × ChatOutcome :=
  if now - st.last_request_time < min_request_interval then
    (st, .rateLimited)
  else
    ({ last_request_time := now },
     .request ⟨model, messages, 7/10, max_tokens, stream⟩)

/-- The client state after a sequence of `chat` calls at the given
times (payload arguments are irrelevant to the throttling state). -/
def chatStates (st : ClientState) (times : List ℚ) : ClientState :=
  times.foldl (fun s t => (DeepSeekClient.chat s t [] "deepseek-chat" 2048 false).1) st

/-- Python `s.replace(old, new, 1)`: replace the first occurrence only. -/
def replaceFirst (s old new : String) : String :=
  match s.splitOn old with
  | [] => s
  | [x] => x
  | x :: rest => x ++ new ++ String.intercalate old rest

/-- Model of `DeepSeekClient.process_stream`. Each element of `chunks` is one
line from `response.iter_lines()` (already UTF-8 decoded); `decode`
models `json.loads` composed with the extraction of the `content` of
each element of `data["choices"]` (via `choices[i].get("delta", {})
.get("content", "")`): `none` is a `JSONDecodeError`, `some cs` the
list of per-choice content strings. Empty lines and lines without the
`data:` prefix are skipped; payload `[DONE]` terminates; undecodable
payloads are skipped; a record contributes its first choice's content
when that content is non-empty. -/
def process_stream (decode : String → Option (List String)) : List String → List String
  | [] => []
  | chunk :: rest =>
    if chunk = "" then process_stream decode rest
    else if chunk.startsWith "data:" then
      let dataStr := pyStrip (replaceFirst chunk "data: " "")
      if dataStr = "[DONE]" then []
      else
        match decode dataStr with
        | none => process_stream decode rest
        | some choices =>
          match choices.head? with
          | none => process_stream decode rest
          | some content =>
            if content = "" then process_stream decode rest
            else content :: process_stream decode rest
    else process_stream decode rest

/-- Whether a line is the terminal sentinel record. -/
def isSentinel (chunk : String) : Bool :=
  chunk ≠ "" && chunk.startsWith "data:" &&
    pyStrip (replaceFirst chunk "data: " "") = "[DONE]"

/-- The fragment a (non-sentinel) line contributes, if any: the first
choice's content of a well-formed `data:` record, when non-empty. -/
def extractFragment (decode : String → Option (List String)) (chunk : String) :
    Option String :=
  if chunk = "" then none
  else if chunk.startsWith "data:" then
    let dataStr := pyStrip (replaceFirst chunk "data: " "")
    match decode dataStr with
    | none => none
    | some choices =>
      match choices.head? with
      | none => none
      | some content => if content = "" then none else some content
  else none

/-! ### Streaming session controller (`ApiRequestThread` + `DeepSeekApp` slots) -/

/-- The UI-thread state touched by one exchange: the conversation
(`self.messages`), the store's persisted `current_session`, the
accumulator `self.current_response`, the `self.streaming` flag, the
worker's cooperative stop flag, button enablement, the number of
`ApiRequestThread` workers started (`send_message` constructs and
starts a new one each time its guards pass), and the last error
surfaced to the user via `QMessageBox` in `on_api_error`. -/
structure AppState where
  messages : List Message
  currentSession : List Message
  current_response : String
  streaming : Bool
  stopRequested : Bool
  sendEnabled : Bool
  stopEnabled : Bool
  threadsStarted : Nat
  lastError : Option String
deriving DecidableEq, Repr

/-- The app state right after `setup_ui`: empty conversation, idle. -/
def initialState : AppState :=
  { messages := []
    currentSession := []
    current_response := ""
    streaming := false
    stopRequested := false
    sendEnabled := true
    stopEnabled := false
    threadsStarted := 0
    lastError := none }

/-- Model of `DeepSeekApp.send_message` (reached from the send button and from
`input_entry.returnPressed`): ignore blank input or a missing client;
otherwise append the user message, persist the session, reset the
accumulator, flip the buttons, and construct and start a fresh
`ApiRequestThread`. Note: the method does not consult
`self.streaming`. -/
def send_message (st : AppState) (input : String) (hasClient : Bool) : AppState :=
  let userInput := pyStrip input
  if userInput = "" then st
  else if !hasClient then st
  else
    let msgs := st.messages ++ [⟨.user, userInput⟩]
    { st with
      messages := msgs
      currentSession := msgs
      streaming := true
      current_response := ""
      stopEnabled := true
      sendEnabled := false
      stopRequested := false
      threadsStarted := st.threadsStarted + 1 }

/-- Model of `DeepSeekApp.update_response` (slot of `response_received`):
append the fragment to the accumulator (UI text drawing elided). -/
def update_response (st : AppState) (fragment : String) : AppState :=
  { st with current_response := st.current_response ++ fragment }

/-- Model of `DeepSeekApp.on_request_finished` (slot of `request_finished`):
clear the streaming flag, flip the buttons, and if the accumulator is
non-empty append it as an assistant message and persist the session. -/
def on_request_finished (st : AppState) : AppState :=
  let st' := { st with streaming := false, stopEnabled := false, sendEnabled := true }
  if st'.current_response ≠ "" then
    let msgs := st'.messages ++ [⟨.assistant, st'.current_response⟩]
    { st' with messages := msgs, currentSession := msgs }
  else st'

/-- Model of `DeepSeekApp.on_api_error` (slot of `error_occurred`): clear the
streaming flag, flip the buttons, surface the error dialog. The
accumulator is left untouched. -/
def on_api_error (st : AppState) (msg : String) : AppState :=
  { st with streaming := false, stopEnabled := false, sendEnabled := true,
            lastError := some msg }

/-- Model of `DeepSeekApp.stop_streaming` (stop button): only acts while
`self.streaming` (a worker exists whenever the flag is set); sets the
worker's cooperative stop flag, clears the streaming flag, flips the
buttons, and if the accumulator is non-empty appends it as an
assistant message and persists the session. -/
def stop_streaming (st : AppState) : AppState :=
  if st.streaming then
    let st' := { st with stopRequested := true, streaming := false,
                         stopEnabled := false, sendEnabled := true }
    if st'.current_response ≠ "" then
      let msgs := st'.messages ++ [⟨.assistant, st'.current_response⟩]
      { st' with messages := msgs, currentSession := msgs }
    else st'
  else st

/-- Events delivered, in order, on the UI thread during one exchange:
fragments relayed by the worker (`response_received`), a user click of
the stop button, the worker's error signal (`error_occurred`), and the
worker's completion signal (`request_finished`, emitted in the
`finally` block of `ApiRequestThread.run`, hence also after a stop or
an error). -/
inductive Event
  | fragment (s : String)
  | stopClick
  | error (msg : String)
  | finished
deriving DecidableEq, Repr

/-- Dispatch one event to its slot. -/
def step (st : AppState) : Event → AppState
  | .fragment s => update_response st s
  | .stopClick => stop_streaming st
  | .error msg => on_api_error st msg
  | .finished => on_request_finished st

/-- Fold a trace of UI-thread events. -/
def run (st : AppState) (events : List Event) : AppState :=
  events.foldl step st

/-! ### Helper lemmas -/

theorem take_append_take {α : Type} (L M : List α) (n : Nat) :
    (L ++ M.take n).take n = (L ++ M).take n := by
  rw [List.take_append_eq_append_take, List.take_append_eq_append_take, List.take_take,
    Nat.min_eq_left (Nat.sub_le n L.length)]

/-! ### Claim theorems -/

/-- C4: a first-message content of length at most 30 yields an identical
title; longer content yields its first 30 characters followed by the
ellipsis marker; unavailable content yields the default title. -/
theorem title_derivation (c : String) :
    (c.length ≤ 30 → mkTitle (some c) = c) ∧
    (30 < c.length → mkTitle (some c) = c.take 30 ++ "...") ∧
    mkTitle none = "无标题对话" := by
  refine ⟨fun h => ?_, fun h => ?_, rfl⟩
  · have h2 : ¬ (c.length > 30) := by omega
    have h3 : c.data.length ≤ 30 := h
    simp only [mkTitle, if_neg h2]
    rw [String.take_eq, List.take_of_length_le h3]
    simp
  · simp only [mkTitle, if_pos (show c.length > 30 from h)]

/-- Witness for C4 at concrete inputs: a 5-character content is kept
verbatim, a 34-character content is truncated with the marker. -/
theorem title_derivation_witness :
    ("hello".length ≤ 30 ∧ mkTitle (some "hello") = "hello") ∧
    (30 < "0123456789012345678901234567890123".length ∧
      mkTitle (some "0123456789012345678901234567890123") =
        "0123456789012345678901234567890123".take 30 ++ "...") :=
  ⟨⟨by decide, (title_derivation "hello").1 (by decide)⟩,
   ⟨by decide, (title_derivation "0123456789012345678901234567890123").2.1 (by decide)⟩⟩

/-- C1 (violated by the code): an exchange ended by the explicit stop
button commits the accumulated assistant message twice — once in
`stop_streaming` and again in `on_request_finished`, which the worker's
`finally` block still triggers and which finds `current_response` still
non-empty. Both the conversation and the persisted session end with the
assistant message duplicated. -/
theorem stop_then_finished_commits_twice :
    (run (send_message initialState "hi" true)
        [.fragment "Hel", .fragment "lo", .stopClick, .finished]).messages
      = [⟨.user, "hi"⟩, ⟨.assistant, "Hello"⟩, ⟨.assistant, "Hello"⟩] ∧
    (run (send_message initialState "hi" true)
        [.fragment "Hel", .fragment "lo", .stopClick, .finished]).currentSession
      = [⟨.user, "hi"⟩, ⟨.assistant, "Hello"⟩, ⟨.assistant, "Hello"⟩] := by
  exact ⟨by decide, by decide⟩

/-- C2 (violated by the code): `send_message` never consults
`self.streaming`, and `input_entry.returnPressed` keeps triggering it
while a reply is streaming (only the send button is disabled), so a
second invocation mid-stream is not rejected: it appends a second user
message and constructs and starts a second concurrent
`ApiRequestThread`. -/
theorem send_while_streaming_not_rejected :
    (send_message initialState "hi" true).streaming = true ∧
    (send_message (send_message initialState "hi" true) "again" true).threadsStarted = 2 ∧
    (send_message (send_message initialState "hi" true) "again" true).messages
      = [⟨.user, "hi"⟩, ⟨.user, "again"⟩] := by
  refine ⟨by decide, by decide, by decide⟩

/-- C7: when a transport failure surfaces mid-stream (`error_occurred`
followed by the `finally`-emitted `request_finished`), a non-empty
accumulator is still finalized: the partial assistant message is
appended to the conversation and persisted, the controller is idle
again (not streaming, send re-enabled), and the error was surfaced. -/
theorem error_finalizes_partial (st : AppState) (msg : String)
    (h : st.current_response ≠ "") :
    (run st [.error msg, .finished]).messages
        = st.messages ++ [⟨.assistant, st.current_response⟩] ∧
    (run st [.error msg, .finished]).currentSession
        = st.messages ++ [⟨.assistant, st.current_response⟩] ∧
    (run st [.error msg, .finished]).streaming = false ∧
    (run st [.error msg, .finished]).sendEnabled = true ∧
    (run st [.error msg, .finished]).lastError = some msg := by
  simp [run, step, on_api_error, on_request_finished, h]

/-- A concrete mid-stream state used by the C7 witness. -/
def errSt : AppState :=
  { initialState with
      current_response := "Hel"
      streaming := true
      messages := [⟨.user, "hi"⟩] }

/-- Witness for C7: a state with accumulator `"Hel"` hit by an error. -/
theorem error_finalizes_partial_witness :
    errSt.current_response ≠ "" ∧
    ((run errSt [.error "boom", .finished]).messages
        = errSt.messages ++ [⟨.assistant, errSt.current_response⟩] ∧
     (run errSt [.error "boom", .finished]).currentSession
        = errSt.messages ++ [⟨.assistant, errSt.current_response⟩] ∧
     (run errSt [.error "boom", .finished]).streaming = false ∧
     (run errSt [.error "boom", .finished]).sendEnabled = true ∧
     (run errSt [.error "boom", .finished]).lastError = some "boom") :=
  ⟨by decide, error_finalizes_partial errSt "boom" (by decide)⟩

/-- Unfolding of `add_to_history` on a non-empty session: prepend the
new entry and keep the newest 50. -/
theorem add_to_history_nonempty (h : List HistoryEntry) (s : List Message) (t : String)
    (hs : s ≠ []) :
    add_to_history h s t = (mkEntry s t :: h).take 50 := by
  simp only [add_to_history, if_neg hs]
  split
  · rfl
  · next hle => rw [List.take_of_length_le (by omega)]

/-- A non-empty run of non-empty appends equals the newest-first list of
all appended entries in front of the old history, truncated to 50. -/
theorem addMany_nonempty_eq (appends : List (List Message × String)) :
    ∀ hist : List HistoryEntry, appends ≠ [] → (∀ p ∈ appends, p.1 ≠ []) →
      addMany hist appends
        = ((appends.map (fun p => mkEntry p.1 p.2)).reverse ++ hist).take 50 := by
  induction appends with
  | nil => intro hist hne _; exact absurd rfl hne
  | cons a as ih =>
    intro hist _ hne
    have ha : a.1 ≠ [] := hne a (List.mem_cons_self a as)
    have step1 : addMany hist (a :: as) = addMany (add_to_history hist a.1 a.2) as := rfl
    cases as with
    | nil =>
      rw [step1]
      show add_to_history hist a.1 a.2 = _
      rw [add_to_history_nonempty _ _ _ ha]
      simp
    | cons b bs =>
      rw [step1, ih _ (by simp) (fun p hp => hne p (List.mem_cons_of_mem a hp)),
        add_to_history_nonempty _ _ _ ha, take_append_take]
      simp

/-- C3: from any store state, 51 appends of non-empty conversations
leave exactly 50 history entries, newest first with the overflow
silently dropped; moreover any single non-empty append leaves at most
50 entries, and an empty append is a no-op. -/
theorem history_cap (hist : List HistoryEntry) (appends : List (List Message × String))
    (h51 : appends.length = 51) (hne : ∀ p ∈ appends, p.1 ≠ []) :
    (addMany hist appends).length = 50 ∧
    addMany hist appends
      = ((appends.map (fun p => mkEntry p.1 p.2)).reverse ++ hist).take 50 ∧
    (∀ h s t, s ≠ [] → (add_to_history h s t).length ≤ 50) ∧
    (∀ h t, add_to_history h [] t = h) := by
  have hnil : appends ≠ [] := by intro hcon; rw [hcon] at h51; simp at h51
  have hmain := addMany_nonempty_eq appends hist hnil hne
  refine ⟨?_, hmain, ?_, ?_⟩
  · rw [hmain, List.length_take, List.length_append, List.length_reverse,
      List.length_map, h51]
    omega
  · intro h s t hs
    rw [add_to_history_nonempty _ _ _ hs]
    simp [List.length_take]
  · intro h t
    simp [add_to_history]

/-- Concrete batch of 51 one-message appends used by the C3 witness. -/
def wAppends : List (List Message × String) :=
  List.replicate 51 ([(⟨Role.user, "x"⟩ : Message)], "t")

/-- Witness for C3: running the 51 concrete appends on the empty
history gives exactly 50 entries with the stated newest-first shape. -/
theorem history_cap_witness :
    wAppends.length = 51 ∧
    (∀ p ∈ wAppends, p.1 ≠ ([] : List Message)) ∧
    (addMany [] wAppends).length = 50 ∧
    addMany [] wAppends
      = ((wAppends.map (fun p : List Message × String => mkEntry p.1 p.2)).reverse
          ++ []).take 50 :=
  ⟨by simp [wAppends], by simp [wAppends],
   (history_cap [] wAppends (by simp [wAppends]) (by simp [wAppends])).1,
   (history_cap [] wAppends (by simp [wAppends]) (by simp [wAppends])).2.1⟩

/-- C5: a second `chat` call less than the minimum interval after an
accepted call raises the rate-limit error with the client state
untouched and no HTTP request issued. -/
theorem rate_limit_second_call (st : ClientState) (now₁ now₂ : ℚ)
    (m₁ m₂ : List Message) (mo₁ mo₂ : String) (t₁ t₂ : Nat) (s₁ s₂ : Bool)
    (hfirst : min_request_interval ≤ now₁ - st.last_request_time)
    (hgap : now₂ - now₁ < min_request_interval) :
    DeepSeekClient.chat (DeepSeekClient.chat st now₁ m₁ mo₁ t₁ s₁).1 now₂ m₂ mo₂ t₂ s₂
      = ((DeepSeekClient.chat st now₁ m₁ mo₁ t₁ s₁).1, .rateLimited) := by
  have h1 : ¬ (now₁ - st.last_request_time < min_request_interval) := not_lt.mpr hfirst
  simp only [DeepSeekClient.chat, if_neg h1]
  rw [if_pos hgap]

/-- Witness for C5: an accepted call at t=1 from reset state, then a
second call at the same instant is rejected. -/
theorem rate_limit_second_call_witness :
    min_request_interval ≤ (1 : ℚ) - (⟨0⟩ : ClientState).last_request_time ∧
    (1 : ℚ) - 1 < min_request_interval ∧
    DeepSeekClient.chat (DeepSeekClient.chat ⟨0⟩ 1 [] "deepseek-chat" 2048 true).1
        1 [] "deepseek-chat" 2048 true
      = ((DeepSeekClient.chat ⟨0⟩ 1 [] "deepseek-chat" 2048 true).1, .rateLimited) :=
  ⟨by simp [min_request_interval], by simp [min_request_interval],
   rate_limit_second_call ⟨0⟩ 1 1 [] [] "deepseek-chat" "deepseek-chat" 2048 2048
     true true (by simp [min_request_interval]) (by simp [min_request_interval])⟩

/-- A rejected `chat` call never touches `last_request_time`, so a
sequence of rejected calls leaves the client state fixed. -/
theorem chatStates_rejected (st : ClientState) :
    ∀ ts : List ℚ, (∀ t ∈ ts, t - st.last_request_time < min_request_interval) →
      chatStates st ts = st := by
  intro ts
  induction ts with
  | nil => intro _; rfl
  | cons t rest ih =>
    intro hrej
    have h1 : t - st.last_request_time < min_request_interval :=
      hrej t (List.mem_cons_self t rest)
    have hstep : (DeepSeekClient.chat st t [] "deepseek-chat" 2048 false).1 = st := by
      simp [DeepSeekClient.chat, if_pos h1]
    calc chatStates st (t :: rest)
        = chatStates (DeepSeekClient.chat st t [] "deepseek-chat" 2048 false).1 rest := rfl
      _ = st := by
          rw [hstep]
          exact ih (fun u hu => hrej u (List.mem_cons_of_mem t hu))

/-- C10: rejected calls do not postpone the next permitted call — after
any sequence of rejected calls the throttling state is unchanged, and a
call at least the minimum interval after the last accepted request
passes the rate check and issues its request. -/
theorem rejected_calls_do_not_postpone (st : ClientState) (ts : List ℚ) (now : ℚ)
    (m : List Message) (mo : String) (mt : Nat) (sf : Bool)
    (hrej : ∀ t ∈ ts, t - st.last_request_time < min_request_interval)
    (hok : min_request_interval ≤ now - st.last_request_time) :
    chatStates st ts = st ∧
    DeepSeekClient.chat (chatStates st ts) now m mo mt sf
      = ({ last_request_time := now }, .request ⟨mo, m, 7/10, mt, sf⟩) := by
  have hfix := chatStates_rejected st ts hrej
  refine ⟨hfix, ?_⟩
  rw [hfix]
  simp only [DeepSeekClient.chat, if_neg (not_lt.mpr hok)]

/-- Witness for C10: a call at t=0 from reset state is rejected and a
call at t=1 still passes the rate check. -/
theorem rejected_calls_do_not_postpone_witness :
    (∀ t ∈ ([0] : List ℚ), t - (⟨0⟩ : ClientState).last_request_time < min_request_interval) ∧
    min_request_interval ≤ (1 : ℚ) - (⟨0⟩ : ClientState).last_request_time ∧
    (chatStates ⟨0⟩ [0] = ⟨0⟩ ∧
     DeepSeekClient.chat (chatStates ⟨0⟩ [0]) 1 [] "deepseek-chat" 2048 true
       = ({ last_request_time := 1 }, .request ⟨"deepseek-chat", [], 7/10, 2048, true⟩)) :=
  ⟨by simp [min_request_interval], by simp [min_request_interval],
   rejected_calls_do_not_postpone ⟨0⟩ [0] 1 [] "deepseek-chat" 2048 true
     (by simp [min_request_interval]) (by simp [min_request_interval])⟩

/-- Fragments extracted by `process_stream` are never empty. -/
theorem extractFragment_ne_empty (decode : String → Option (List String)) (c f : String)
    (h : extractFragment decode c = some f) : f ≠ "" := by
  simp only [extractFragment] at h
  split at h
  · exact absurd h (by simp)
  · split at h
    · split at h
      · exact absurd h (by simp)
      · split at h
        · exact absurd h (by simp)
        · split at h
          · exact absurd h (by simp)
          · next hc =>
              injection h with h
              subst h
              exact hc
    · exact absurd h (by simp)

/-- The fragment list equals, record by record in order, the non-empty
first-choice deltas of the records preceding the sentinel. -/
theorem process_stream_eq (decode : String → Option (List String))
    (chunks : List String) :
    process_stream decode chunks
      = (chunks.takeWhile (fun c => !(isSentinel c))).filterMap (extractFragment decode) := by
  induction chunks with
  | nil => rfl
  | cons chunk rest ih =>
    by_cases h0 : chunk = ""
    · subst h0
      have hs : isSentinel "" = false := by simp [isSentinel]
      have he : extractFragment decode "" = none := by simp [extractFragment]
      simp only [process_stream, if_pos rfl, ih, List.takeWhile_cons, hs,
        Bool.not_false, if_pos, List.filterMap_cons, he]
    · by_cases h1 : chunk.startsWith "data:"
      · by_cases h2 : pyStrip (replaceFirst chunk "data: " "") = "[DONE]"
        · have hs : isSentinel chunk = true := by simp [isSentinel, h0, h1, h2]
          simp only [process_stream, if_neg h0, h1, if_true, if_pos h2,
            List.takeWhile_cons, hs, Bool.not_true, Bool.false_eq_true, if_false,
            List.filterMap_nil]
        · have hs : isSentinel chunk = false := by simp [isSentinel, h0, h1, h2]
          cases hd : decode (pyStrip (replaceFirst chunk "data: " "")) with
          | none =>
            have he : extractFragment decode chunk = none := by
              simp [extractFragment, h0, h1, h2, hd]
            simp [process_stream, h0, h1, h2, hd, ih, hs, he]
          | some choices =>
            cases choices with
            | nil =>
              have he : extractFragment decode chunk = none := by
                simp [extractFragment, h0, h1, h2, hd]
              simp [process_stream, h0, h1, h2, hd, ih, hs, he]
            | cons content cs =>
              by_cases hc : content = ""
              · subst hc
                have he : extractFragment decode chunk = none := by
                  simp [extractFragment, h0, h1, h2, hd]
                simp [process_stream, h0, h1, h2, hd, ih, hs, he]
              · have he : extractFragment decode chunk = some content := by
                  simp [extractFragment, h0, h1, h2, hd, hc]
                simp [process_stream, h0, h1, h2, hd, hc, ih, hs, he]
      · have hs : isSentinel chunk = false := by simp [isSentinel, h1]
        have he : extractFragment decode chunk = none := by
          simp [extractFragment, h0, h1]
        simp [process_stream, h0, h1, ih, hs, he]

/-- C6: for every streamed line sequence, the decoded fragments are
exactly, in order, the non-empty first-choice content deltas of the
well-formed `data:` records before the `[DONE]` sentinel; the sentinel
terminates the sequence, no empty fragment is ever produced, and
malformed records are skipped without aborting. -/
theorem stream_fragment_extraction (decode : String → Option (List String))
    (chunks : List String) :
    process_stream decode chunks
      = (chunks.takeWhile (fun c => !(isSentinel c))).filterMap (extractFragment decode) ∧
    "" ∉ process_stream decode chunks := by
  refine ⟨process_stream_eq decode chunks, ?_⟩
  rw [process_stream_eq decode chunks]
  intro hmem
  rw [List.mem_filterMap] at hmem
  obtain ⟨a, -, ha⟩ := hmem
  exact extractFragment_ne_empty decode a "" ha rfl

/-- Lookup commutes with a key-preserving map over the values. -/
theorem lookupJ_map_val (d : List (String × JValue)) (g : String → JValue → JValue)
    (k : String) :
    lookupJ (d.map (fun p => (p.1, g p.1 p.2))) k = (lookupJ d k).map (g k) := by
  induction d with
  | nil => rfl
  | cons p rest ih =>
    by_cases h : p.1 = k
    · subst h
      simp [lookupJ]
    · simp [lookupJ, h, ih]

/-- Lookup over an appended dict tries the left part first. -/
theorem lookupJ_append (A B : List (String × JValue)) (k : String) :
    lookupJ (A ++ B) k = (lookupJ A k).or (lookupJ B k) := by
  induction A with
  | nil => rfl
  | cons p rest ih =>
    by_cases h : p.1 = k
    · simp [lookupJ, h]
    · simp [lookupJ, h, ih]

/-- Lookup through a filter whose predicate depends only on the key. -/
theorem lookupJ_filter_key (l : List (String × JValue)) (q : String → Bool) (k : String) :
    lookupJ (l.filter (fun p => q p.1)) k = if q k then lookupJ l k else none := by
  induction l with
  | nil => simp [lookupJ]
  | cons p rest ih =>
    by_cases hq : q p.1
    · by_cases hk : p.1 = k
      · subst hk
        simp [lookupJ, hq]
      · simp [lookupJ, hq, hk, ih]
    · by_cases hk : p.1 = k
      · subst hk
        simp only [List.filter_cons, Bool.not_eq_true] at *
        simp [hq, ih, lookupJ]
      · simp [lookupJ, hq, hk, ih]

/-- Lookup of the loaded config at a default key applies `mergeVal`. -/
theorem lookupJ_load_config (lc : List (String × JValue)) (k : String) :
    lookupJ (load_config (some lc)) k = (lookupJ DEFAULT_CONFIG k).map (mergeVal lc k) :=
  lookupJ_map_val DEFAULT_CONFIG (mergeVal lc) k

/-- Persisted keys win in `{**default, **loaded}`. -/
theorem pyDictMerge_loaded_wins (dd ld : List (String × JValue)) (k : String)
    (w : JValue) (h : lookupJ ld k = some w) :
    lookupJ (pyDictMerge dd ld) k = some w := by
  rw [pyDictMerge, lookupJ_append,
    lookupJ_map_val dd (fun x dv => (lookupJ ld x).getD dv) k,
    lookupJ_filter_key ld (fun x => (lookupJ dd x).isNone) k]
  cases hdd : lookupJ dd k <;> simp [h, hdd]

/-- Keys missing from the persisted dict take the default. -/
theorem pyDictMerge_default_fills (dd ld : List (String × JValue)) (k : String)
    (h : lookupJ ld k = none) :
    lookupJ (pyDictMerge dd ld) k = lookupJ dd k := by
  rw [pyDictMerge, lookupJ_append,
    lookupJ_map_val dd (fun x dv => (lookupJ ld x).getD dv) k,
    lookupJ_filter_key ld (fun x => (lookupJ dd x).isNone) k]
  cases hdd : lookupJ dd k <;> simp [h, hdd]

/-- C8 counterexample: loading the persisted document with the single
binding `custom_key ↦ 1` (and no `theme` key) yields the default theme,
but the persisted `custom_key` value is not preserved — the loaded
config has no `custom_key` at all, refuting "every other persisted
top-level value is preserved" as stated. -/
theorem load_config_drops_unknown_key :
    lookupJ [("custom_key", JValue.num 1)] "theme" = none ∧
    lookupJ (load_config (some [("custom_key", JValue.num 1)])) "theme"
      = some (JValue.str "light") ∧
    lookupJ (load_config (some [("custom_key", JValue.num 1)])) "custom_key" = none :=
  ⟨rfl, rfl, rfl⟩

/-- C8 (amended): loading a persisted document without `theme` yields
the built-in default theme; every persisted value at a recognized
(default-template) top-level key is preserved — wholesale unless both
the default and the persisted value are dicts, in which case they merge
key-by-key with persisted keys winning and missing keys taking the
default; unknown top-level keys are ignored. -/
theorem settings_merge_defaults (lc : List (String × JValue))
    (hθ : lookupJ lc "theme" = none) :
    lookupJ (load_config (some lc)) "theme" = some (JValue.str "light") ∧
    (∀ k v dv, lookupJ DEFAULT_CONFIG k = some dv → lookupJ lc k = some v →
      ((∀ dd, dv ≠ JValue.obj dd) ∨ (∀ ld, v ≠ JValue.obj ld) →
        lookupJ (load_config (some lc)) k = some v) ∧
      (∀ dd ld, dv = JValue.obj dd → v = JValue.obj ld →
        lookupJ (load_config (some lc)) k = some (JValue.obj (pyDictMerge dd ld)))) ∧
    (∀ dd ld k w, lookupJ ld k = some w → lookupJ (pyDictMerge dd ld) k = some w) ∧
    (∀ dd ld k, lookupJ ld k = none → lookupJ (pyDictMerge dd ld) k = lookupJ dd k) := by
  refine ⟨?_, ?_, pyDictMerge_loaded_wins, pyDictMerge_default_fills⟩
  · rw [lookupJ_load_config]
    have hdef : lookupJ DEFAULT_CONFIG "theme" = some (JValue.str "light") := rfl
    rw [hdef]
    simp [mergeVal, hθ]
  · intro k v dv hd hk
    constructor
    · intro hcase
      rw [lookupJ_load_config, hd]
      cases dv <;> cases v <;> simp [mergeVal, hk]
      rcases hcase with h | h <;> exact absurd rfl (h _)
    · intro dd ld hdv hv
      subst hdv
      subst hv
      rw [lookupJ_load_config, hd]
      simp [mergeVal, hk]

/-- Persisted document used by the C8 witness. -/
def wDoc : List (String × JValue) :=
  [("language", JValue.str "en-US"),
   ("user", JValue.obj [("username", JValue.str "u")])]

/-- Default `user` dict, as it appears in `DEFAULT_CONFIG`. -/
def wUserDefault : List (String × JValue) :=
  [("username", JValue.str ""), ("login_type", JValue.str "manual"),
   ("last_login", JValue.str "")]

/-- Witness for C8 (amended) on the persisted document
`{"language": "en-US", "user": {"username": "u"}}`: theme defaults,
the flat `language` value survives, and the nested `user` dict merges
with persisted `username` winning and default `login_type` filled in. -/
theorem settings_merge_defaults_witness :
    lookupJ wDoc "theme" = none ∧
    (lookupJ (load_config (some wDoc)) "theme" = some (JValue.str "light") ∧
     lookupJ (load_config (some wDoc)) "language" = some (JValue.str "en-US") ∧
     lookupJ (load_config (some wDoc)) "user"
       = some (JValue.obj (pyDictMerge wUserDefault [("username", JValue.str "u")])) ∧
     lookupJ (pyDictMerge wUserDefault [("username", JValue.str "u")]) "username"
       = some (JValue.str "u") ∧
     lookupJ (pyDictMerge wUserDefault [("username", JValue.str "u")]) "login_type"
       = lookupJ wUserDefault "login_type") :=
  ⟨rfl,
   (settings_merge_defaults wDoc rfl).1,
   ((settings_merge_defaults wDoc rfl).2.1 "language" (JValue.str "en-US")
       (JValue.str "zh-CN") rfl rfl).1 (Or.inl (fun _ => by simp)),
   ((settings_merge_defaults wDoc rfl).2.1 "user"
       (JValue.obj [("username", JValue.str "u")])
       (JValue.obj wUserDefault) rfl rfl).2 _ _ rfl rfl,
   (settings_merge_defaults wDoc rfl).2.2.1 wUserDefault
     [("username", JValue.str "u")] "username" (JValue.str "u") rfl,
   (settings_merge_defaults wDoc rfl).2.2.2 wUserDefault
     [("username", JValue.str "u")] "login_type" rfl⟩

/-- Assigning a key makes it the key's lookup result. -/
theorem lookupJ_setKey_self (l : List (String × JValue)) (k : String) (v : JValue) :
    lookupJ (setKey l k v) k = some v := by
  induction l with
  | nil => simp [setKey, lookupJ]
  | cons p rest ih =>
    by_cases h : p.1 = k
    · simp [setKey, h, lookupJ]
    · simp [setKey, h, lookupJ, ih]

/-- Decoding inverts encoding for a single message. -/
theorem decode_encode_message (m : Message) : decodeMessage (encodeMessage m) = some m := by
  cases m with
  | mk r c => cases r <;> rfl

/-- Decoding inverts encoding for a message list. -/
theorem decode_encode_messages (msgs : List Message) :
    decodeMessages (encodeMessages msgs) = some msgs := by
  induction msgs with
  | nil => rfl
  | cons m rest ih =>
    simp only [encodeMessages, decodeMessages] at ih ⊢
    simp only [List.map_cons, decodeMessageList, decode_encode_message m, ih]

/-- C9: saving any conversation as the current session into any loaded
store state and reloading from the backing file reproduces the same
conversation, both at the persisted-JSON level (via `ConfigManager.get`)
and after decoding back to messages. -/
theorem session_round_trip (doc : List (String × JValue)) (msgs : List Message) :
    ConfigManager.get
        (load_config (some (save_current_session (load_config (some doc)) msgs)))
        "current_session"
      = some (encodeMessages msgs) ∧
    decodeMessages (encodeMessages msgs) = some msgs := by
  have hsaved : lookupJ (save_current_session (load_config (some doc)) msgs)
      "current_session" = some (JValue.list (msgs.map encodeMessage)) :=
    lookupJ_setKey_self _ _ _
  have hload : lookupJ
      (load_config (some (save_current_session (load_config (some doc)) msgs)))
      "current_session" = some (encodeMessages msgs) := by
    rw [lookupJ_load_config]
    have hdef : lookupJ DEFAULT_CONFIG "current_session" = some (JValue.list []) := rfl
    rw [hdef]
    simp [mergeVal, hsaved, encodeMessages]
  refine ⟨?_, decode_encode_messages msgs⟩
  have hsplit : pySplit "current_session" '.' = ["current_session"] := rfl
  unfold ConfigManager.get
  rw [hsplit]
  simp [walkPath, hload, encodeMessages]
